import Mathlib

/-!
Verification development for the augment-vip repository.

The Python sources are shallowly embedded: Python strings become `List Char`
(written `Str`), files become an association list from path to typed content,
fallible operations return explicit outcome values, and the random sources
used by the identifier generators become explicit `Nat` parameters reduced
modulo `2 ^ 128` (the width of one `uuid.uuid4()` value).

Source files embedded here:
  * `src/augment_vip/utils.py`        (term codec, IDE table, generators)
  * `src/augment_vip/db_cleaner.py`   (tabular and tree purge)
  * `src/augment_vip/id_modifier.py`  (orchestrators for regenerate)
  * `src/core_functions.py`           (document regenerate)
  * `src/multi_ide_modifier.py`       (id files, lock, db clean, runner)
-/

/-- Python strings are modelled as lists of characters. -/
abbrev Str := List Char

namespace AugmentVip

/-! ## Character and casing helpers

The repository only ever feeds ASCII data through `str.lower`, `str.upper`
and `str.capitalize`; the embedding implements the ASCII fragment of those
Python methods. -/

/-- ASCII fragment of Python `str.lower` on one character. -/
def lowerChar (c : Char) : Char :=
  if 'A' ≤ c ∧ c ≤ 'Z' then Char.ofNat (c.toNat + 32) else c

/-- ASCII fragment of Python `str.upper` on one character. -/
def upperChar (c : Char) : Char :=
  if 'a' ≤ c ∧ c ≤ 'z' then Char.ofNat (c.toNat - 32) else c

/-- Python `str.lower` (ASCII fragment). -/
def pyLower (t : Str) : Str := t.map lowerChar

/-- Python `str.upper` (ASCII fragment). -/
def pyUpper (t : Str) : Str := t.map upperChar

/-- Python `str.capitalize` (ASCII fragment): first character uppercased,
all remaining characters lowercased. -/
def pyCapitalize : Str → Str
  | [] => []
  | c :: t => upperChar c :: t.map lowerChar

/-! ## Python substring and SQL LIKE matching -/

/-- `strStartsWith hay pat` is true iff `pat` is an initial segment of `hay`. -/
def strStartsWith : Str → Str → Bool
  | _, [] => true
  | [], _ :: _ => false
  | c :: cs, p :: ps => (p = c) && strStartsWith cs ps

/-- Python `pat in hay` substring containment. -/
def strContains : Str → Str → Bool
  | [], pat => strStartsWith [] pat
  | c :: cs, pat => strStartsWith (c :: cs) pat || strContains cs pat

/-- One-position match of a SQL `LIKE` pattern body: `_` matches any single
character, every other pattern character matches case-insensitively (SQLite
`LIKE` is case-insensitive for ASCII). The patterns the repository builds
contain no inner `%`. -/
def likeHere : Str → Str → Bool
  | [], _ => true
  | _ :: _, [] => false
  | p :: ps, c :: cs => (p = '_' || lowerChar p = lowerChar c) && likeHere ps cs

/-- `likeContains hay pat` models `hay LIKE '%pat%'` in SQLite. -/
def likeContains : Str → Str → Bool
  | [], pat => likeHere pat []
  | c :: cs, pat => likeHere pat (c :: cs) || likeContains cs pat

/-! ## Base64 and ASCII decoding (`base64.b64decode(..).decode('utf-8')`)

All encoded constants in the repository decode to ASCII byte sequences, so
the byte-to-text step only needs the ASCII (single-byte) fragment of UTF-8;
a non-ASCII byte makes the decode fail, which each caller absorbs.  -/

/-- Value of one character of the standard base64 alphabet. -/
def b64Val (c : Char) : Option Nat :=
  if 'A' ≤ c ∧ c ≤ 'Z' then some (c.toNat - 65)
  else if 'a' ≤ c ∧ c ≤ 'z' then some (c.toNat - 97 + 26)
  else if '0' ≤ c ∧ c ≤ '9' then some (c.toNat - 48 + 52)
  else if c = '+' then some 62
  else if c = '/' then some 63
  else none

/-- Decode base64 text four characters at a time, honouring `=` padding.
Any character outside the alphabet (in a non-padding position) fails. -/
def b64Chunks : Str → Option (List Nat)
  | [] => some []
  | [a, b, '=', '='] => do
      let va ← b64Val a
      let vb ← b64Val b
      pure [va * 4 + vb / 16]
  | [a, b, c, '='] => do
      let va ← b64Val a
      let vb ← b64Val b
      let vc ← b64Val c
      pure [va * 4 + vb / 16, (vb % 16) * 16 + vc / 4]
  | a :: b :: c :: d :: rest => do
      let va ← b64Val a
      let vb ← b64Val b
      let vc ← b64Val c
      let vd ← b64Val d
      let tail ← b64Chunks rest
      pure ([va * 4 + vb / 16, (vb % 16) * 16 + vc / 4, (vc % 4) * 64 + vd] ++ tail)
  | _ => none

/-- ASCII fragment of `bytes.decode('utf-8')`. -/
def asciiDecode (bs : List Nat) : Option Str :=
  bs.mapM (fun b => if b < 128 then some (Char.ofNat b) else none)

/-- `base64.b64decode(e).decode('utf-8')` for the ASCII payloads used by the
repository; `none` models the exception path. -/
def decodeOne (e : Str) : Option Str :=
  (b64Chunks e).bind asciiDecode

/-! ## Term codec (`src/augment_vip/utils.py`) -/

/-- `_CONFIG_KEYS` from `utils.py`, in insertion order. -/
def CONFIG_KEYS : List (Str × Str) :=
  [(("db_pattern_a").toList, ("YXVnbWVudA==").toList),
   (("db_pattern_b").toList, ("QXVnbWVudA==").toList),
   (("db_pattern_c").toList, ("QVVHTUVOQA==").toList),
   (("legacy_key_1").toList, ("YXVnbWVudHM=").toList),
   (("legacy_key_2").toList, ("YXVnbWVudGVk").toList)]

/-- `_ENCODED_TERMS` from `utils.py`. -/
def ENCODED_TERMS : List Str :=
  [("YXVnbWVudA==").toList, ("QXVnbWVudA==").toList, ("QVVHTUVOQA==").toList]

/-- One iteration of the decoding loops of `_decode_search_terms`: on decode
success extend with the term and its three casings, on failure skip. -/
def decodeStep (acc : List Str) (e : Str) : List Str :=
  match decodeOne e with
  | some d => acc ++ [d, pyLower d, pyUpper d, pyCapitalize d]
  | none => acc

/-- Order-preserving deduplication with an accumulator of already-seen
elements; models Python `dict.fromkeys` (and the membership content of
`list(set(..))`, whose order Python leaves unspecified). -/
def dedupFirstAux {α : Type} [DecidableEq α] : List α → List α → List α
  | _, [] => []
  | seen, x :: xs =>
    if x ∈ seen then dedupFirstAux seen xs else x :: dedupFirstAux (x :: seen) xs

/-- Keep the first occurrence of every element. -/
def dedupFirst {α : Type} [DecidableEq α] (l : List α) : List α :=
  dedupFirstAux [] l

/-- The raw `terms` list of `_decode_search_terms` after the two decoding
loops, before suffix derivation. -/
def rawDecodedTerms : List Str :=
  (ENCODED_TERMS).foldl decodeStep ((CONFIG_KEYS.map Prod.snd).foldl decodeStep [])

/-- `base_terms = list(set([t.lower() for t in terms]))`: the distinct
lowercased terms. Python's set iteration order is unspecified; the embedding
fixes first-appearance order, and all facts proved below depend only on
membership, which is order-independent. -/
def baseTerms : List Str :=
  dedupFirst (rawDecodedTerms.map pyLower)

/-- Suffix and decoration derivation loop of `_decode_search_terms`. -/
def derivedTerms : List Str :=
  baseTerms.foldl
    (fun acc b =>
      if 3 < b.length then
        acc ++ [b ++ ("s").toList, b ++ ("ed").toList, b ++ ("ing").toList,
                pyCapitalize b ++ ("VIP").toList, pyUpper b ++ ("_").toList]
      else acc) []

/-- `_decode_search_terms()` from `utils.py`: decoded terms with casing
variants, then derived suffix forms, deduplicated keeping first occurrence
(`list(dict.fromkeys(terms))`). -/
def decode_search_terms : List Str :=
  dedupFirst (rawDecodedTerms ++ derivedTerms)

/-- `_check_term_match(text, terms)` from `utils.py`: true iff `text` is
non-empty and case-insensitively contains some term. -/
def check_term_match (text : Str) (terms : List Str) : Bool :=
  if text = [] then false
  else terms.any (fun term => strContains (pyLower text) (pyLower term))

/-- The base literals produced by decoding every seed term (without casing
variants): the seeds that decode successfully, decoded. -/
def decodedSeedLiterals : List Str :=
  (CONFIG_KEYS.map Prod.snd ++ ENCODED_TERMS).filterMap decodeOne

/-! ## Identifier generators (`utils.py`, `core_functions.py`,
`multi_ide_modifier.py`)

`uuid.uuid4()` is a fresh 128-bit random value; the embedding passes the
random source explicitly as a `Nat` reduced modulo `2 ^ 128`.  `uuid4().hex`
is that value as 32 zero-padded lowercase hex characters. -/

/-- Lowercase hexadecimal digit for `n < 16`. -/
def hexDigit (n : Nat) : Char :=
  if n < 10 then Char.ofNat (48 + n) else Char.ofNat (87 + n)

/-- Hex rendering of a natural number, most significant digit first.  The
fuel argument only bounds recursion depth; 40 digits cover every value this
development renders (at most 2 ^ 128 - 1). -/
def natToHexAux : Nat → Nat → Str
  | 0, _ => []
  | fuel + 1, n =>
    if n < 16 then [hexDigit n]
    else natToHexAux fuel (n / 16) ++ [hexDigit (n % 16)]

/-- `uuid.uuid4().hex`: 32 zero-padded lowercase hex characters of one
128-bit random value. -/
def uuidHex (r : Nat) : Str :=
  List.replicate (32 - (natToHexAux 40 (r % 2 ^ 128)).length) '0' ++
    natToHexAux 40 (r % 2 ^ 128)

/-- `generate_machine_id()` from `utils.py`/`core_functions.py`:
`uuid.uuid4().hex + uuid.uuid4().hex`. -/
def generate_machine_id (r1 r2 : Nat) : Str :=
  uuidHex r1 ++ uuidHex r2

/-- `str(uuid.uuid4())`: the canonical hyphenated textual form. -/
def uuid4_str (r : Nat) : Str :=
  let h := uuidHex r
  h.take 8 ++ ['-'] ++ (h.drop 8).take 4 ++ ['-'] ++
    (h.drop 12).take 4 ++ ['-'] ++ (h.drop 16).take 4 ++ ['-'] ++ h.drop 20

/-- `generate_device_id()` from `utils.py`/`core_functions.py`. -/
def generate_device_id (r : Nat) : Str := uuid4_str r

/-- Hex alphabet test for the machine-id property. -/
def isHexChar (c : Char) : Bool := c ∈ ("0123456789abcdef").toList

/-! ## Filesystem model

A file's bytes are modelled at the granularity the adapters read them:
SQLite stores as their `ItemTable` rows, JSON stores as their field list,
XML stores as their element tree, anything else as opaque bytes.  Copying
moves content verbatim, so "byte-for-byte equal" is content equality. -/

/-- A JSON value as far as the document adapter needs one. -/
inductive JVal : Type
  | jstr (v : Str)
  | jnum (n : Int)
  deriving DecidableEq

/-- An XML element: tag, attributes, direct text, children
(`xml.etree.ElementTree` view). -/
inductive XTree : Type
  | node (tag : Str) (attrs : List (Str × Str)) (text : Option Str)
      (children : List XTree)

/-- Typed file content. -/
inductive Content : Type
  | bytes (b : Str)
  | sqliteDb (rows : List (Str × Str))
  | xmlDoc (t : XTree)
  | jsonDoc (fields : List (Str × JVal))

/-- The filesystem: an association list from path to content; the first
binding for a path wins. -/
abbrev FS := List (Str × Content)

/-- Content at a path, `none` when the file does not exist. -/
def fsGet : FS → Str → Option Content
  | [], _ => none
  | (q, c) :: t, p => if q = p then some c else fsGet t p

/-- Write content at a path (overwrite or create). -/
def fsSet : FS → Str → Content → FS
  | [], p, c => [(p, c)]
  | (q, c0) :: t, p, c => if q = p then (q, c) :: t else (q, c0) :: fsSet t p c

/-- Remove a path (`Path.unlink`). -/
def fsDel : FS → Str → FS
  | [], _ => []
  | (q, c0) :: t, p => if q = p then fsDel t p else (q, c0) :: fsDel t p

/-- Observable file events emitted by the embedded operations, in program
order. `copied src dst` is a `shutil.copy2`, `wrote p` any in-place write of
store `p`, `unlinked p` a deletion. -/
inductive Event : Type
  | copied (src dst : Str)
  | wrote (p : Str)
  | unlinked (p : Str)
  deriving DecidableEq

/-- The deterministic backup sibling path: original path + `.backup`. -/
def backupPath (p : Str) : Str := p ++ (".backup").toList

/-- Path join with the separator modelled uniformly as `/`. -/
def pjoin (a b : Str) : Str := a ++ ("/").toList ++ b

/-! ## JSON document operations -/

/-- Python `data[k] = v` on a dict rendered as an ordered field list:
replace in place if present, else append. -/
def dictSet : List (Str × JVal) → Str → JVal → List (Str × JVal)
  | [], k, v => [(k, v)]
  | (k0, v0) :: t, k, v =>
    if k0 = k then (k0, v) :: t else (k0, v0) :: dictSet t k v

/-- Python `data.get(k)`. -/
def dictGet : List (Str × JVal) → Str → Option JVal
  | [], _ => none
  | (k0, v0) :: t, k => if k0 = k then some v0 else dictGet t k

/-! ## XML tree traversal (`xml.etree.ElementTree` view) -/

mutual

/-- `elem.iter()`: the element followed by all descendants, preorder. -/
def XTree.iterAll : XTree → List XTree
  | .node tag attrs text children =>
    .node tag attrs text children :: iterAllList children

/-- `iter` over a list of sibling subtrees. -/
def XTree.iterAllList : List XTree → List XTree
  | [] => []
  | t :: ts => t.iterAll ++ iterAllList ts

end

/-- Strict descendants of an element (`elem.findall(".//..")` search space). -/
def XTree.descendants : XTree → List XTree
  | .node _ _ _ children => XTree.iterAllList children

def XTree.tag : XTree → Str
  | .node tag _ _ _ => tag

def XTree.attrs : XTree → List (Str × Str)
  | .node _ attrs _ _ => attrs

def XTree.text : XTree → Option Str
  | .node _ _ text _ => text

/-- `elem.get(name)`. -/
def XTree.getAttr (e : XTree) (name : Str) : Option Str :=
  (e.attrs.find? (fun a => a.fst = name)).map Prod.snd

/-- The per-element test of the first scan of `clean_jetbrains_xml_file`:
`elem.text` is truthy and matches, or some attribute value is truthy and
matches. -/
def elemMatches (terms : List Str) (e : XTree) : Bool :=
  (match e.text with
   | some t => t ≠ [] && check_term_match t terms
   | none => false)
  || e.attrs.any (fun a => a.snd ≠ [] && check_term_match a.snd terms)

/-- `findall(".//option[@name='projectPath']")` hits inside one
`RecentProjectMetaInfo` element whose `value` matches. -/
def recentProjectHits (terms : List Str) (rp : XTree) : List XTree :=
  (rp.descendants.filter (fun o =>
    o.tag = ("option").toList ∧
    o.getAttr (("name").toList) = some (("projectPath").toList))).filter
    (fun o => match o.getAttr (("value").toList) with
      | some v => v ≠ [] && check_term_match v terms
      | none => false)

/-- `findall(".//option")` hits inside one `RecentFiles` element whose
`value` matches. -/
def recentFileHits (terms : List Str) (rf : XTree) : List XTree :=
  (rf.descendants.filter (fun o => o.tag = ("option").toList)).filter
    (fun o => match o.getAttr (("value").toList) with
      | some v => v ≠ [] && check_term_match v terms
      | none => false)

/-- True iff nothing in the tree matches the term set: the generic element
scan, the `RecentProjectMetaInfo` pass and the `RecentFiles` pass all come
up empty, so `removed_count` stays `0` in `clean_jetbrains_xml_file`. -/
def noJetbrainsMatches (terms : List Str) (root : XTree) : Bool :=
  (root.iterAll.filter (elemMatches terms)).isEmpty
  && (root.iterAll.filter (fun e => e.tag = ("RecentProjectMetaInfo").toList)).all
      (fun rp => (recentProjectHits terms rp).isEmpty)
  && (root.iterAll.filter (fun e => e.tag = ("RecentFiles").toList)).all
      (fun rf => (recentFileHits terms rf).isEmpty)

/-! ## Mutation outcomes

The Python functions report through a returned `bool` plus distinct log
lines; `Outcome` records which return path was taken.  `toBool` is the value
the Python function actually returns. -/

inductive Outcome : Type
  /-- Returned `True` after deleting/rewriting `n` entries. -/
  | success (n : Nat)
  /-- Returned `True` on the "no target entries found" path, without writing. -/
  | noop
  /-- Returned early because the store file was absent. -/
  | notFound
  /-- Returned `False` after copying the backup back over the original
  ("Restored from backup"). -/
  | failedRestored
  /-- Returned `False` after the restore copy itself failed, or no backup
  file was present to restore from. -/
  | failedUnrecoverable
  /-- Returned `False` from a handler that does not attempt any restore. -/
  | failedNoRestore
  deriving DecidableEq

/-- The `bool` the Python function returns for each outcome. -/
def Outcome.toBool : Outcome → Bool
  | .success _ => true
  | .noop => true
  | _ => false

/-- Restore step shared by the failure handlers: if the backup sibling
exists, try to copy it back over the original (`shutil.copy2(backup_path,
original)`); `restoreOk = false` models that copy raising. -/
def restoreFromBackup (fs : FS) (p : Str) (restoreOk : Bool) :
    Outcome × FS × List Event :=
  match fsGet fs (backupPath p) with
  | some c =>
    if restoreOk then (.failedRestored, fsSet fs p c, [.copied (backupPath p) p])
    else (.failedUnrecoverable, fs, [])
  | none => (.failedUnrecoverable, fs, [])

/-! ## Tabular purge (`db_cleaner.clean_vscode_based_ide`, lines 49-117)

The SQL built by the function is `DELETE FROM ItemTable WHERE key LIKE
'%t1%' OR key LIKE '%t2%' OR ...` over the decoded search terms; the row
predicate below is that `WHERE` clause.  The only effectful failure modes of
the `try` body are injected through `fault`: `sqliteFault` is an
`sqlite3.Error` (handled with a restore attempt, lines 103-114),
`otherFault` is the generic `except Exception` handler (lines 115-117),
which returns `False` without restoring; either carries the on-disk content
at the moment the exception surfaced. -/

/-- The `WHERE` clause of `clean_vscode_based_ide`: the key LIKE-matches
some decoded search term. -/
def sqlKeyMatches (key : Str) : Bool :=
  decode_search_terms.any (fun t => likeContains key t)

/-- Injected failure of the tabular adapter step. -/
inductive VFault : Type
  | sqliteFault (atFault : Content)
  | otherFault (atFault : Content)

/-- `clean_vscode_based_ide` from `db_cleaner.py`.  `state_db` is
`paths.get("state_db")`. -/
def clean_vscode_based_ide (fs : FS) (state_db : Option Str)
    (fault : Option VFault) (restoreOk : Bool) : Outcome × FS × List Event :=
  match state_db with
  | none => (.notFound, fs, [])
  | some p =>
    match fsGet fs p with
    | none => (.notFound, fs, [])
    | some orig =>
      -- backup_file(state_db): shutil.copy2 to the deterministic sibling
      let bp := backupPath p
      let fs1 := fsSet fs bp orig
      let tr1 : List Event := [.copied p bp]
      match fault with
      | some (.sqliteFault atFault) =>
        let fs2 := fsSet fs1 p atFault
        let r := restoreFromBackup fs2 p restoreOk
        (r.fst, r.snd.fst, tr1 ++ [.wrote p] ++ r.snd.snd)
      | some (.otherFault atFault) =>
        let fs2 := fsSet fs1 p atFault
        (.failedNoRestore, fs2, tr1 ++ [.wrote p])
      | none =>
        match fsGet fs1 p with
        | some (.sqliteDb rows) =>
          let countBefore := rows.countP (fun r => sqlKeyMatches r.fst)
          if countBefore = 0 then
            -- "No target entries found in the database": return True
            (.noop, fs1, tr1)
          else
            -- DELETE then recount: count_after is 0, so the reported
            -- removal count is countBefore
            let remaining := rows.filter (fun r => !(sqlKeyMatches r.fst))
            (.success countBefore, fsSet fs1 p (.sqliteDb remaining),
              tr1 ++ [.wrote p])
        | _ =>
          -- not a SQLite database: cursor.execute raises sqlite3.Error
          -- with the store still unchanged on disk
          let r := restoreFromBackup fs1 p restoreOk
          (r.fst, r.snd.fst, tr1 ++ r.snd.snd)

/-! ## Tree purge (`db_cleaner.clean_jetbrains_xml_file`, lines 162-246)

Match detection (which entries are flagged) and the backup/parse/failure
handling are embedded concretely.  The removal-and-serialise phase — the
`root.find(f".//*[tag]/..")` parent search, `remove` calls and
`tree.write` — is abstracted by `JMut`, since no claim depends on the
rewritten tree, only on whether that phase removed something, removed
nothing, or raised. -/

/-- Behaviour of the removal-and-write phase when at least one entry
matched. -/
inductive JMut : Type
  /-- Removals applied (`removed_count = n > 0`) and `tree.write`
  succeeded, leaving `newContent` on disk. -/
  | writeOk (n : Nat) (newContent : Content)
  /-- The removal loops removed nothing (`removed_count == 0`), so the
  function returned `True` without writing. -/
  | zeroRemoved
  /-- An exception during removal or serialisation, with the store on disk
  at `atExn`; handled by the generic handler (lines 235-246) with a
  restore attempt. -/
  | exn (atExn : Content)

/-- `clean_jetbrains_xml_file` from `db_cleaner.py`.  A missing file would
make `backup_file` call `sys.exit(1)`; both callers check existence first,
so that path is reported as `notFound` here. -/
def clean_jetbrains_xml_file (fs : FS) (p : Str) (phase : JMut)
    (restoreOk : Bool) : Outcome × FS × List Event :=
  match fsGet fs p with
  | none => (.notFound, fs, [])
  | some orig =>
    let bp := backupPath p
    let fs1 := fsSet fs bp orig
    let tr1 : List Event := [.copied p bp]
    match orig with
    | .xmlDoc root =>
      if noJetbrainsMatches decode_search_terms root then
        -- removed_count == 0: "No target entries found", return True
        (.noop, fs1, tr1)
      else
        match phase with
        | .writeOk n c => (.success n, fsSet fs1 p c, tr1 ++ [.wrote p])
        | .zeroRemoved => (.noop, fs1, tr1)
        | .exn atExn =>
          let fs2 := fsSet fs1 p atExn
          let r := restoreFromBackup fs2 p restoreOk
          (r.fst, r.snd.fst, tr1 ++ [.wrote p] ++ r.snd.snd)
    | _ =>
      -- ET.ParseError (lines 223-234): restore attempt, return False
      let r := restoreFromBackup fs1 p restoreOk
      (r.fst, r.snd.fst, tr1 ++ r.snd.snd)

/-! ## Document regenerate (`core_functions.modify_telemetry_ids`,
lines 133-166; `id_modifier.modify_telemetry_ids_legacy` has the same
body) -/

/-- `modify_telemetry_ids` from `core_functions.py`.  `storage_json` is the
resolved `storage.json` path; `r1 r2 r3` are the random sources of the two
generators. -/
def modify_telemetry_ids (fs : FS) (storage_json : Str) (r1 r2 r3 : Nat) :
    Bool × FS × List Event :=
  match fsGet fs storage_json with
  | none => (false, fs, [])
  | some orig =>
    let bp := backupPath storage_json
    let fs1 := fsSet fs bp orig
    let tr1 : List Event := [.copied storage_json bp]
    match orig with
    | .jsonDoc d =>
      let machineId := generate_machine_id r1 r2
      let deviceId := generate_device_id r3
      let d1 := dictSet d (("telemetry.machineId").toList) (.jstr machineId)
      let d2 := dictSet d1 (("telemetry.devDeviceId").toList) (.jstr deviceId)
      (true, fsSet fs1 storage_json (.jsonDoc d2), tr1 ++ [.wrote storage_json])
    | _ =>
      -- json.JSONDecodeError: return False; the file was not written
      (false, fs1, tr1)

/-! ## Identifier file rewrite (`multi_ide_modifier.update_id_file`,
lines 179-220)

The function deletes the file if present, recreates the parent directory,
and writes a new UUID; it takes no backup.  `unlinkOk`/`writeOk` model the
two I/O steps of the `try` body raising (`except Exception` returns
`False`). -/

def update_id_file (fs : FS) (p : Str) (r : Nat) (unlinkOk writeOk : Bool) :
    Bool × FS × List Event :=
  -- reading and printing the old UUID has no filesystem effect
  let newUuid := uuid4_str r
  match fsGet fs p with
  | some _ =>
    if unlinkOk then
      let fs1 := fsDel fs p
      if writeOk then (true, fsSet fs1 p (.bytes newUuid), [.unlinked p, .wrote p])
      else (false, fs1, [.unlinked p])
    else (false, fs, [])
  | none =>
    -- parent mkdir(parents=True, exist_ok=True), then write_text
    if writeOk then (true, fsSet fs p (.bytes newUuid), [.wrote p])
    else (false, fs, [])

/-! ## File lock (`multi_ide_modifier.lock_file`, lines 335-377)

The `subprocess.run` attempts (`attrib +R` / `chmod 444` / `chflags uchg`)
are launched with `check=False` and cannot raise.  The guaranteed final
step is the Python `chmod` clearing the write bits; `chmodOk = false`
models it raising, which the handler converts into a returned `False`.
The embedding is a total function: the Python function never propagates an
exception. -/

def lock_file (fs : FS) (p : Str) (chmodOk : Bool) : Bool :=
  if (fsGet fs p).isNone then false
  else chmodOk

/-! ## Database clean (`multi_ide_modifier.clean_vscode_database`,
lines 286-333)

The decoded queries are `SELECT COUNT(*) FROM ItemTable WHERE key LIKE
'%augment%';` and the matching `DELETE`.  The source function recurses once
on `file_name + ".backup"`; the recursion is unrolled here because the
callee's own `endswith(".backup")` guard makes any deeper call unreachable,
and the recursive call's return value is discarded by the source. -/

/-- Row predicate of the decoded queries: `key LIKE '%augment%'`. -/
def mimRowMatches (key : Str) : Bool :=
  likeContains key (("augment").toList)

/-- One file-level pass of `clean_vscode_database`: returns
(file existed, returned value, filesystem, events). A file that is not a
SQLite database makes `cursor.execute` raise, caught by the handler which
returns `False`. -/
def cleanDbFile (fs : FS) (path : Str) : Bool × Bool × FS × List Event :=
  match fsGet fs path with
  | none => (false, true, fs, [])
  | some (.sqliteDb rows) =>
    let n := rows.countP (fun row => mimRowMatches row.fst)
    if n = 0 then (true, true, fs, [])
    else
      (true, true,
       fsSet fs path (.sqliteDb (rows.filter (fun row => !(mimRowMatches row.fst)))),
       [.wrote path])
  | some _ => (true, false, fs, [])

/-- `clean_vscode_database(dir, count_query, delete_query, file_name)`. -/
def clean_vscode_database (fs : FS) (dir fileName : Str) :
    Bool × FS × List Event :=
  let r := cleanDbFile fs (pjoin dir fileName)
  let existed := r.fst
  let ret := r.snd.fst
  let fs1 := r.snd.snd.fst
  let tr1 := r.snd.snd.snd
  if existed = false then (true, fs1, tr1)
  else if ret = false then (false, fs1, tr1)
  else if (".backup").toList.isSuffixOf fileName then (true, fs1, tr1)
  else
    let r2 := cleanDbFile fs1 (pjoin dir (fileName ++ (".backup").toList))
    (true, r2.snd.snd.fst, tr1 ++ r2.snd.snd.snd)

/-! ## JetBrains regenerate orchestrator (`id_modifier.modify_jetbrains_ids`,
lines 21-69)

For each of the two base64-encoded ID file names: decode the name, rewrite
the file with `update_id_file`, then `lock_file` it; `success_count` is
incremented only when both steps succeed, and the function returns
`success_count > 0`.  Per-file oracles (indexed by position) drive the
injected I/O faults. -/

/-- The base64-encoded ID file names (`PermanentDeviceId`,
`PermanentUserId`). -/
def id_files_encoded : List Str :=
  [("UGVybWFuZW50RGV2aWNlSWQ=").toList, ("UGVybWFuZW50VXNlcklk").toList]

/-- One iteration of the `for file_name_encoded in id_files_encoded` loop
of `modify_jetbrains_ids`; the fault oracles are keyed by the encoded file
name. A decode failure raises and is caught per file. -/
def jetbrainsIdStep (d : Str) (rs : Str → Nat) (unlinkOk writeOk chmodOk : Str → Bool)
    (acc : Nat × FS × List Event) (enc : Str) : Nat × FS × List Event :=
  match decodeOne enc with
  | none => acc
  | some name =>
    let p := pjoin d name
    let r := update_id_file acc.snd.fst p (rs enc) (unlinkOk enc) (writeOk enc)
    let cnt :=
      if r.fst then
        if lock_file r.snd.fst p (chmodOk enc) then acc.fst + 1
        else acc.fst   -- "Updated but failed to lock file" warning
      else acc.fst     -- "Failed to update file" error
    (cnt, r.snd.fst, acc.snd.snd ++ r.snd.snd)

def modify_jetbrains_ids (fs : FS) (jetbrains_dir : Option Str)
    (rs : Str → Nat) (unlinkOk writeOk chmodOk : Str → Bool) :
    Bool × FS × List Event :=
  match jetbrains_dir with
  | none => (false, fs, [])
  | some d =>
    let res := id_files_encoded.foldl (jetbrainsIdStep d rs unlinkOk writeOk chmodOk) (0, fs, [])
    (res.fst > 0, res.snd.fst, res.snd.snd)

/-! ## Orchestrator loops (`id_modifier.modify_vscode_ids`, lines 175-187,
and `multi_ide_modifier.run`, lines 436-441)

Each loop body is wrapped in `try/except`, so one store's failure cannot
abort the remaining stores.  The per-store work is abstracted as oracles
returning `Except Unit Bool` (`error` models the body raising); the loops
record the directories whose body was entered. -/

/-- The per-directory loop of `modify_vscode_ids`: count directories whose
`update_vscode_files` returned `True`; `clean_vscode_database` runs after a
non-raising update and its result is discarded. Returns
(`success_count`, directories processed). -/
def modify_vscode_ids_loop (dirs : List Str)
    (upd cln : Str → Except Unit Bool) : Nat × List Str :=
  match dirs with
  | [] => (0, [])
  | d :: rest =>
    let here : Nat :=
      match upd d with
      | .error _ => 0                       -- caught; clean skipped
      | .ok b =>
        match cln d with                    -- result unused, errors caught
        | _ => if b then 1 else 0
    let tail := modify_vscode_ids_loop rest upd cln
    (here + tail.fst, d :: tail.snd)

/-- The per-directory loop of `run` (standalone script): both calls'
results are discarded; exceptions are caught per directory. Returns the
directories processed. -/
def run_vscode_loop (dirs : List Str) (upd cln : Str → Except Unit Bool) :
    List Str :=
  match dirs with
  | [] => []
  | d :: rest =>
    match upd d with
    | .error _ => d :: run_vscode_loop rest upd cln
    | .ok _ =>
      match cln d with
      | _ => d :: run_vscode_loop rest upd cln

/-! ## Store discovery (`utils.detect_installed_ides`, lines 308-329)

`IDE_CONFIGS` is embedded with the fields discovery reads: key, display
name and the per-OS candidate root lists. Windows entries are `None` when
`APPDATA` is unset, which the loop's `if path and path.exists()` skips.
Path joining is modelled uniformly with `/`. Existence of paths is an
oracle `ex : Str → Bool`. -/

inductive OsClass : Type
  | windows
  | macos
  | linux
  deriving DecidableEq

structure IdeConfig : Type where
  key : Str
  name : Str
  windowsPaths : List (Option Str)
  macosPaths : List (Option Str)
  linuxPaths : List (Option Str)
  deriving DecidableEq

/-- `config[f"{system.lower()}_paths"]` (with Darwin mapped to macos). -/
def pathsFor : OsClass → IdeConfig → List (Option Str)
  | .windows, c => c.windowsPaths
  | .macos, c => c.macosPaths
  | .linux, c => c.linuxPaths

/-- One VS-Code-family entry of `IDE_CONFIGS`. -/
def vsCodeFamilyConfig (key name dirName : String) (appdata : Option Str)
    (home : Str) : IdeConfig :=
  { key := key.toList
    name := name.toList
    windowsPaths := [appdata.map (fun a => a ++ ("/").toList ++ dirName.toList ++ ("/User").toList)]
    macosPaths := [some (home ++ ("/Library/Application Support/").toList ++ dirName.toList ++ ("/User").toList)]
    linuxPaths := [some (home ++ ("/.config/").toList ++ dirName.toList ++ ("/User").toList)] }

/-- One JetBrains-family entry of `IDE_CONFIGS` (three versioned candidate
roots per OS, newest first). -/
def jetbrainsFamilyConfig (key name productBase : String) (appdata : Option Str)
    (home : Str) : IdeConfig :=
  let vers := [("2024.3").toList, ("2024.2").toList, ("2024.1").toList]
  { key := key.toList
    name := name.toList
    windowsPaths := vers.map (fun v => appdata.map
      (fun a => a ++ ("/JetBrains/").toList ++ productBase.toList ++ v))
    macosPaths := vers.map (fun v => some
      (home ++ ("/Library/Application Support/JetBrains/").toList ++ productBase.toList ++ v))
    linuxPaths := vers.map (fun v => some
      (home ++ ("/.config/JetBrains/").toList ++ productBase.toList ++ v)) }

/-- `IDE_CONFIGS` from `utils.py`, in insertion order. -/
def IDE_CONFIGS (appdata : Option Str) (home : Str) : List IdeConfig :=
  [vsCodeFamilyConfig ("vscode") ("Visual Studio Code") ("Code") appdata home,
   vsCodeFamilyConfig ("vscode-insiders") ("Visual Studio Code Insiders")
     ("Code - Insiders") appdata home,
   vsCodeFamilyConfig ("cursor") ("Cursor") ("Cursor") appdata home,
   vsCodeFamilyConfig ("codium") ("VSCodium") ("VSCodium") appdata home,
   jetbrainsFamilyConfig ("intellij") ("IntelliJ IDEA") ("IntelliJIdea") appdata home,
   jetbrainsFamilyConfig ("pycharm") ("PyCharm") ("PyCharm") appdata home,
   jetbrainsFamilyConfig ("webstorm") ("WebStorm") ("WebStorm") appdata home,
   jetbrainsFamilyConfig ("phpstorm") ("PhpStorm") ("PhpStorm") appdata home]

/-- The inner loop of `detect_installed_ides`: take the first candidate
that is non-`None` and exists, then `break`. -/
def firstExistingPath (ex : Str → Bool) : List (Option Str) → Option Str
  | [] => none
  | p? :: rest =>
    match p? with
    | some p => if ex p then some p else firstExistingPath ex rest
    | none => firstExistingPath ex rest

/-- `detect_installed_ides()` from `utils.py`: one `(key, name, base)`
entry per descriptor whose candidate list contains an existing root. -/
def detect_installed_ides (os : OsClass) (appdata : Option Str) (home : Str)
    (ex : Str → Bool) : List (Str × Str × Str) :=
  (IDE_CONFIGS appdata home).filterMap
    (fun cfg => (firstExistingPath ex (pathsFor os cfg)).map
      (fun p => (cfg.key, cfg.name, p)))

/-- The happened-before discipline required of one operation's event trace:
every in-place write of store `p` is preceded by the backup copy of `p` to
its backup sibling. -/
def backupBeforeWrite (tr : List Event) (p : Str) : Prop :=
  ∀ i : Nat, tr[i]? = some (Event.wrote p) →
    ∃ j : Nat, j < i ∧ tr[j]? = some (Event.copied p (backupPath p))

/-! ## Helper lemmas -/

theorem fsGet_fsSet_self (fs : FS) (p : Str) (c : Content) :
    fsGet (fsSet fs p c) p = some c := by
  induction fs with
  | nil => simp [fsSet, fsGet]
  | cons hd t ih =>
    by_cases h : hd.fst = p
    · simp [fsSet, fsGet, h]
    · simp [fsSet, fsGet, h, ih]

theorem fsGet_fsSet_ne (fs : FS) (p q : Str) (c : Content) (h : q ≠ p) :
    fsGet (fsSet fs p c) q = fsGet fs q := by
  have h' : p ≠ q := Ne.symm h
  induction fs with
  | nil => simp [fsSet, fsGet, h']
  | cons hd t ih =>
    by_cases h2 : hd.fst = p
    · simp [fsSet, fsGet, h2, h']
    · simp [fsSet, fsGet, h2, ih]

theorem backupPath_ne (p : Str) : backupPath p ≠ p := by
  intro h
  have := congrArg List.length h
  simp [backupPath] at this

theorem dictGet_dictSet_self (d : List (Str × JVal)) (k : Str) (v : JVal) :
    dictGet (dictSet d k v) k = some v := by
  induction d with
  | nil => simp [dictSet, dictGet]
  | cons hd t ih =>
    by_cases h : hd.fst = k
    · simp [dictSet, dictGet, h]
    · simp [dictSet, dictGet, h, ih]

theorem dictGet_dictSet_ne (d : List (Str × JVal)) (k : Str) (v : JVal)
    (k' : Str) (h : k' ≠ k) : dictGet (dictSet d k v) k' = dictGet d k' := by
  have h' : k ≠ k' := Ne.symm h
  induction d with
  | nil => simp [dictSet, dictGet, h']
  | cons hd t ih =>
    by_cases h2 : hd.fst = k
    · simp [dictSet, dictGet, h2, h']
    · simp [dictSet, dictGet, h2, ih]

theorem hexDigit_hex (n : Nat) (h : n < 16) : isHexChar (hexDigit n) = true := by
  interval_cases n <;> decide

theorem natToHexAux_length : ∀ (fuel k n : Nat), 1 ≤ k → k ≤ fuel →
    n < 16 ^ k → (natToHexAux fuel n).length ≤ k := by
  intro fuel
  induction fuel with
  | zero => intro k n h1 h2 _; omega
  | succ fuel ih =>
    intro k n h1 h2 h3
    unfold natToHexAux
    by_cases h : n < 16
    · simp [h]; omega
    · simp [h]
      have hk : 2 ≤ k := by
        by_contra hk2
        have hk1 : k = 1 := by omega
        subst hk1
        simp [pow_one] at h3
        omega
      have hpow : 16 ^ (k - 1) * 16 = 16 ^ k := by
        rw [← pow_succ]
        congr 1
        omega
      have hdiv : n / 16 < 16 ^ (k - 1) :=
        (Nat.div_lt_iff_lt_mul (by norm_num)).mpr (by omega)
      have := ih (k - 1) (n / 16) (by omega) (by omega) hdiv
      omega

theorem natToHexAux_chars : ∀ (fuel n : Nat) (c : Char),
    c ∈ natToHexAux fuel n → isHexChar c = true := by
  intro fuel
  induction fuel with
  | zero => intro n c h; simp [natToHexAux] at h
  | succ fuel ih =>
    intro n c h
    unfold natToHexAux at h
    by_cases hn : n < 16
    · simp [hn] at h
      rw [h]
      exact hexDigit_hex n hn
    · simp [hn] at h
      rcases h with h | h
      · exact ih _ _ h
      · rw [h]
        exact hexDigit_hex _ (Nat.mod_lt _ (by norm_num))

theorem uuidHex_length (r : Nat) : (uuidHex r).length = 32 := by
  unfold uuidHex
  have h1 : (natToHexAux 40 (r % 2 ^ 128)).length ≤ 32 := by
    apply natToHexAux_length 40 32
    · norm_num
    · norm_num
    · have hm : r % 2 ^ 128 < 2 ^ 128 := Nat.mod_lt _ (by norm_num)
      have h2 : (16 : Nat) ^ 32 = 2 ^ 128 := by norm_num
      omega
  rw [List.length_append, List.length_replicate]
  omega

theorem uuidHex_chars (r : Nat) (c : Char) (h : c ∈ uuidHex r) :
    isHexChar c = true := by
  unfold uuidHex at h
  simp at h
  rcases h with h | h
  · rw [h.2]; decide
  · exact natToHexAux_chars _ _ _ h

theorem generate_machine_id_length (r1 r2 : Nat) :
    (generate_machine_id r1 r2).length = 64 := by
  unfold generate_machine_id
  simp [uuidHex_length]

theorem generate_machine_id_chars (r1 r2 : Nat) (c : Char)
    (h : c ∈ generate_machine_id r1 r2) : isHexChar c = true := by
  unfold generate_machine_id at h
  rcases List.mem_append.mp h with h | h
  · exact uuidHex_chars _ _ h
  · exact uuidHex_chars _ _ h

theorem generate_machine_id_ne_abc (r1 r2 : Nat) :
    generate_machine_id r1 r2 ≠ ("abc").toList := by
  intro h
  have := congrArg List.length h
  rw [generate_machine_id_length] at this
  exact absurd this (by decide)

theorem strStartsWith_map (f : Char → Char) :
    ∀ hay pat, strStartsWith hay pat = true →
      strStartsWith (hay.map f) (pat.map f) = true := by
  intro hay pat
  induction pat generalizing hay with
  | nil => intro _; cases hay <;> rfl
  | cons p ps ih =>
    intro h
    cases hay with
    | nil => simp [strStartsWith] at h
    | cons c cs =>
      simp [strStartsWith] at h ⊢
      exact ⟨by rw [h.1], ih cs h.2⟩

theorem strContains_map (f : Char → Char) :
    ∀ hay pat, strContains hay pat = true →
      strContains (hay.map f) (pat.map f) = true := by
  intro hay
  induction hay with
  | nil =>
    intro pat h
    cases pat with
    | nil => rfl
    | cons _ _ => simp [strContains, strStartsWith] at h
  | cons c cs ih =>
    intro pat h
    simp [strContains] at h ⊢
    rcases h with h | h
    · exact Or.inl (strStartsWith_map f _ _ h)
    · exact Or.inr (ih pat h)

theorem strContains_nil (pat : Str) (h : strContains [] pat = true) :
    pat = [] := by
  cases pat with
  | nil => rfl
  | cons _ _ => simp [strContains, strStartsWith] at h

theorem firstExistingPath_append (ex : Str → Bool) :
    ∀ (l1 rest : List (Option Str)),
      (∀ q : Str, some q ∈ l1 → ex q = false) →
      firstExistingPath ex (l1 ++ rest) = firstExistingPath ex rest := by
  intro l1
  induction l1 with
  | nil => intro rest _; rfl
  | cons p? t ih =>
    intro rest h
    cases p? with
    | none =>
      simpa [firstExistingPath] using
        ih rest (fun q hq => h q (List.mem_cons_of_mem _ hq))
    | some q =>
      have hq : ex q = false := h q (List.mem_cons_self _ _)
      simp [firstExistingPath, hq]
      exact ih rest (fun q' hq' => h q' (List.mem_cons_of_mem _ hq'))

theorem backupBeforeWrite_nil (p : Str) : backupBeforeWrite [] p := by
  unfold backupBeforeWrite
  intro i hi
  simp at hi

theorem backupBeforeWrite_cons (p : Str) (rest : List Event) :
    backupBeforeWrite (Event.copied p (backupPath p) :: rest) p := by
  unfold backupBeforeWrite
  intro i hi
  match i with
  | 0 => simp at hi
  | Nat.succ n => exact ⟨0, Nat.succ_pos n, by simp⟩

/-! ## Claim theorems -/

/-- C3: the claim that the derived forms `variant+"s"`, `variant+"ed"`,
`variant+"ing"` are added for *every* variant longer than 3 characters is
false on the code: `"AUGMENT"` is in the decoded term set and longer than 3
characters, yet `"AUGMENTs"` is not in the set, because
`_decode_search_terms` derives the suffix forms only from the lowercased
base terms. -/
theorem C3_uppercase_variant_missing :
    ("AUGMENT").toList ∈ decode_search_terms ∧
    3 < (("AUGMENT").toList).length ∧
    ("AUGMENTs").toList ∉ decode_search_terms := by decide

/-- C3 (amended): for every seed term that decodes successfully, the term
set contains the decoded term and its lowercase, uppercase, and capitalized
forms; for every *distinct lowercased base term* longer than 3 characters it
additionally contains base+"s", base+"ed", base+"ing", Capitalized+"VIP" and
UPPERCASE+"_"; the final list preserves order of first appearance of the
generated sequence and drops duplicates. -/
theorem C3_codec_variants :
    (∀ d ∈ decodedSeedLiterals,
        d ∈ decode_search_terms ∧ pyLower d ∈ decode_search_terms ∧
        pyUpper d ∈ decode_search_terms ∧ pyCapitalize d ∈ decode_search_terms) ∧
    (∀ b ∈ baseTerms, 3 < b.length →
        b ++ ("s").toList ∈ decode_search_terms ∧
        b ++ ("ed").toList ∈ decode_search_terms ∧
        b ++ ("ing").toList ∈ decode_search_terms ∧
        pyCapitalize b ++ ("VIP").toList ∈ decode_search_terms ∧
        pyUpper b ++ ("_").toList ∈ decode_search_terms) ∧
    decode_search_terms.Nodup ∧
    (∀ x ∈ rawDecodedTerms ++ derivedTerms, x ∈ decode_search_terms) ∧
    (∀ x ∈ decode_search_terms, x ∈ rawDecodedTerms ++ derivedTerms) := by
  decide

/-- C3 witness: the amended theorem applied to the decoded seed term
`"augment"` and to the base term `"augment"`. -/
theorem C3_codec_variants_witness :
    ("augment").toList ∈ decode_search_terms ∧
    (("augment").toList ++ ("ing").toList) ∈ decode_search_terms :=
  ⟨(C3_codec_variants.1 (("augment").toList) (by decide)).1,
   (C3_codec_variants.2.1 (("augment").toList) (by decide) (by decide)).2.2.1⟩

/-- C6: for every seed term that decodes successfully (`d` a decoded
literal) and for every casing `h` of a haystack `h0` containing the decoded
literal, `_check_term_match` on `h` and the decoded term set returns true:
decode followed by matches on the exact decoded literal succeeds
case-insensitively, regardless of input case. -/
theorem C6_decode_then_matches (d h h0 : Str)
    (hd : d ∈ decodedSeedLiterals)
    (hcase : pyLower h = pyLower h0)
    (hcont : strContains h0 d = true) :
    check_term_match h decode_search_terms = true := by
  have hmem : d ∈ decode_search_terms := by
    have hall : ∀ x ∈ decodedSeedLiterals, x ∈ decode_search_terms := by decide
    exact hall d hd
  have hdne : d ≠ [] := by
    have hall : ∀ x ∈ decodedSeedLiterals, x ≠ [] := by decide
    exact hall d hd
  have h0ne : h0 ≠ [] := by
    intro he
    subst he
    exact hdne (strContains_nil d hcont)
  have hne : h ≠ [] := by
    intro he
    subst he
    have hlen := congrArg List.length hcase
    simp [pyLower] at hlen
    exact h0ne (List.length_eq_zero.mp hlen.symm)
  have hlow : strContains (pyLower h) (pyLower d) = true := by
    rw [hcase]
    exact strContains_map lowerChar h0 d hcont
  unfold check_term_match
  rw [if_neg hne, List.any_eq_true]
  exact ⟨d, hmem, hlow⟩

/-- C6 witness: the mixed-case haystack `"XAuGmEnTy"` — a recasing of
`"xaugmenty"`, which contains the decoded literal `"augment"` — matches. -/
theorem C6_decode_then_matches_witness :
    check_term_match (("XAuGmEnTy").toList) decode_search_terms = true :=
  C6_decode_then_matches (("augment").toList) (("XAuGmEnTy").toList)
    (("xaugmenty").toList) (by decide) (by decide) (by decide)

/-- C9: a failure while processing one store never aborts the remaining
stores.  Both per-directory loops (in `modify_vscode_ids` and in the
standalone `run`) process every discovered directory whatever the
per-directory outcomes (including raised exceptions, the `error` oracle
results), and `modify_vscode_ids` aggregates the count of directories whose
update returned `True`. -/
theorem C9_loop_processes_all (dirs : List Str)
    (upd cln : Str → Except Unit Bool) :
    (modify_vscode_ids_loop dirs upd cln).snd = dirs ∧
    run_vscode_loop dirs upd cln = dirs ∧
    (modify_vscode_ids_loop dirs upd cln).fst =
      dirs.countP (fun d => match upd d with | .ok true => true | _ => false) := by
  induction dirs with
  | nil => exact ⟨rfl, rfl, rfl⟩
  | cons d rest ih =>
    refine ⟨?_, ?_, ?_⟩
    · simp only [modify_vscode_ids_loop]
      simpa using ih.1
    · cases hu : upd d with
      | error e => simp [run_vscode_loop, hu, ih.2.1]
      | ok b => simp [run_vscode_loop, hu, ih.2.1]
    · have htail := ih.2.2
      rw [List.countP_cons]
      cases hu : upd d with
      | error e =>
        simp [modify_vscode_ids_loop, hu, htail]
      | ok b =>
        cases hc : cln d <;> cases b <;>
          simp [modify_vscode_ids_loop, hu, hc, htail] <;> omega

/-- C10: when the database file is absent from a storage directory,
`clean_vscode_database` returns `True` without creating any backup,
performing any write, or touching the filesystem at all. -/
theorem C10_missing_db (fs : FS) (dir : Str)
    (h : fsGet fs (pjoin dir (("state.vscdb").toList)) = none) :
    clean_vscode_database fs dir (("state.vscdb").toList) = (true, fs, []) := by
  simp only [clean_vscode_database, cleanDbFile, h]
  simp

/-- C10 witness: the empty filesystem has no database under `/data`. -/
theorem C10_missing_db_witness :
    clean_vscode_database [] (("/data").toList) (("state.vscdb").toList) =
      (true, [], []) :=
  C10_missing_db [] (("/data").toList) rfl

/-- C5: on every JSON document store, `modify_telemetry_ids` replaces only
the planned field names (`telemetry.machineId`, `telemetry.devDeviceId`) and
leaves the value of every other field unchanged; the machine-id field
becomes a fresh 64-character hex string, which differs from any 3-character
old value such as `"abc"`. -/
theorem C5_regenerate_frame (fs : FS) (p : Str) (d : List (Str × JVal))
    (r1 r2 r3 : Nat) (hd : fsGet fs p = some (.jsonDoc d)) :
    ∃ d', fsGet (modify_telemetry_ids fs p r1 r2 r3).snd.fst p =
        some (.jsonDoc d') ∧
      (∀ k, k ≠ ("telemetry.machineId").toList →
        k ≠ ("telemetry.devDeviceId").toList → dictGet d' k = dictGet d k) ∧
      dictGet d' (("telemetry.machineId").toList) =
        some (.jstr (generate_machine_id r1 r2)) ∧
      (generate_machine_id r1 r2).length = 64 ∧
      (∀ c ∈ generate_machine_id r1 r2, isHexChar c = true) ∧
      generate_machine_id r1 r2 ≠ ("abc").toList := by
  have hres : (modify_telemetry_ids fs p r1 r2 r3).snd.fst =
      fsSet (fsSet fs (backupPath p) (.jsonDoc d)) p
        (.jsonDoc (dictSet
          (dictSet d (("telemetry.machineId").toList)
            (.jstr (generate_machine_id r1 r2)))
          (("telemetry.devDeviceId").toList)
          (.jstr (generate_device_id r3)))) := by
    simp only [modify_telemetry_ids, hd]
  refine ⟨dictSet
      (dictSet d (("telemetry.machineId").toList)
        (.jstr (generate_machine_id r1 r2)))
      (("telemetry.devDeviceId").toList)
      (.jstr (generate_device_id r3)), ?_, ?_, ?_,
    generate_machine_id_length r1 r2, generate_machine_id_chars r1 r2,
    generate_machine_id_ne_abc r1 r2⟩
  · rw [hres]
    exact fsGet_fsSet_self _ _ _
  · intro k hk1 hk2
    rw [dictGet_dictSet_ne _ _ _ _ hk2, dictGet_dictSet_ne _ _ _ _ hk1]
  · rw [dictGet_dictSet_ne _ _ _ _ (by decide), dictGet_dictSet_self]

/-- C5 witness: the scenario document with machine id `"abc"` and an
unrelated field `"other" = 1`: after regenerate, `other` still maps to `1`
and the machine id is the fresh 64-character hex value. -/
theorem C5_regenerate_frame_witness :
    ∃ d', fsGet (modify_telemetry_ids
        [((("/s.json").toList),
          Content.jsonDoc
            [((("telemetry.machineId").toList), JVal.jstr (("abc").toList)),
             ((("other").toList), JVal.jnum 1)])]
        (("/s.json").toList) 0 1 2).snd.fst (("/s.json").toList) =
      some (.jsonDoc d') ∧
      dictGet d' (("other").toList) = some (.jnum 1) ∧
      dictGet d' (("telemetry.machineId").toList) =
        some (.jstr (generate_machine_id 0 1)) := by
  obtain ⟨d', h1, h2, h3, _, _, _⟩ := C5_regenerate_frame
    [((("/s.json").toList),
      Content.jsonDoc
        [((("telemetry.machineId").toList), JVal.jstr (("abc").toList)),
         ((("other").toList), JVal.jnum 1)])]
    (("/s.json").toList)
    [((("telemetry.machineId").toList), JVal.jstr (("abc").toList)),
     ((("other").toList), JVal.jnum 1)] 0 1 2 rfl
  refine ⟨d', h1, ?_, h3⟩
  rw [h2 _ (by decide) (by decide)]
  rfl

/-- C7: store discovery iterates each descriptor's candidate roots for the
current OS class in descriptor order and uses exactly the first existing
root as that application's base: if every candidate before `some p` is
absent and `p` exists, the chosen base is `p`, it does not depend on the
later candidates at all, and `(key, name, p)` is the discovery entry
emitted for that descriptor. -/
theorem C7_first_existing_root (os : OsClass) (appdata : Option Str)
    (home : Str) (ex : Str → Bool) (cfg : IdeConfig)
    (l1 : List (Option Str)) (p : Str) (l2 : List (Option Str))
    (hcfg : cfg ∈ IDE_CONFIGS appdata home)
    (hsplit : pathsFor os cfg = l1 ++ some p :: l2)
    (hp : ex p = true)
    (hearlier : ∀ q : Str, some q ∈ l1 → ex q = false) :
    firstExistingPath ex (pathsFor os cfg) = some p ∧
    (∀ l2' : List (Option Str),
      firstExistingPath ex (l1 ++ some p :: l2') = some p) ∧
    (cfg.key, cfg.name, p) ∈ detect_installed_ides os appdata home ex := by
  have hfirst : ∀ l2' : List (Option Str),
      firstExistingPath ex (l1 ++ some p :: l2') = some p := by
    intro l2'
    rw [firstExistingPath_append ex l1 _ hearlier]
    simp [firstExistingPath, hp]
  have hbase : firstExistingPath ex (pathsFor os cfg) = some p := by
    rw [hsplit]
    exact hfirst l2
  refine ⟨hbase, hfirst, ?_⟩
  apply List.mem_filterMap.mpr
  exact ⟨cfg, hcfg, by rw [hbase]; rfl⟩

/-- C7 witness: on Linux with home `/home/u`, only
`/home/u/.config/Code/User` exists; discovery reports it as the base of the
`vscode` descriptor. -/
theorem C7_first_existing_root_witness :
    ((("vscode").toList, ("Visual Studio Code").toList,
      ("/home/u/.config/Code/User").toList) ∈
        detect_installed_ides .linux none (("/home/u").toList)
          (fun q => q = ("/home/u/.config/Code/User").toList)) :=
  (C7_first_existing_root .linux none (("/home/u").toList)
    (fun q => q = ("/home/u/.config/Code/User").toList)
    (vsCodeFamilyConfig ("vscode") ("Visual Studio Code") ("Code") none
      (("/home/u").toList))
    [] (("/home/u/.config/Code/User").toList) []
    (by decide) (by decide) (by decide)
    (fun q hq => absurd hq (List.not_mem_nil _))).2.2

/-- C4: when zero entries of a store match the decoded term set, the purge
reports the no-op path (returning `True` after "No target entries found")
and the store file keeps its exact content, with no write event on it —
for both the tabular purge (`clean_vscode_based_ide`) and the tree purge
(`clean_jetbrains_xml_file`). -/
theorem C4_zero_matches_noop :
    (∀ (fs : FS) (p : Str) (rows : List (Str × Str)) (rok : Bool),
      fsGet fs p = some (.sqliteDb rows) →
      rows.countP (fun r => sqlKeyMatches r.fst) = 0 →
      (clean_vscode_based_ide fs (some p) none rok).fst = .noop ∧
      fsGet (clean_vscode_based_ide fs (some p) none rok).snd.fst p =
        some (.sqliteDb rows) ∧
      (Event.wrote p) ∉ (clean_vscode_based_ide fs (some p) none rok).snd.snd) ∧
    (∀ (fs : FS) (p : Str) (t : XTree) (phase : JMut) (rok : Bool),
      fsGet fs p = some (.xmlDoc t) →
      noJetbrainsMatches decode_search_terms t = true →
      (clean_jetbrains_xml_file fs p phase rok).fst = .noop ∧
      fsGet (clean_jetbrains_xml_file fs p phase rok).snd.fst p =
        some (.xmlDoc t) ∧
      (Event.wrote p) ∉ (clean_jetbrains_xml_file fs p phase rok).snd.snd) := by
  constructor
  · intro fs p rows rok hd hcount
    have hget1 : fsGet (fsSet fs (backupPath p) (.sqliteDb rows)) p =
        some (.sqliteDb rows) := by
      rw [fsGet_fsSet_ne _ _ _ _ (Ne.symm (backupPath_ne p))]
      exact hd
    have hrun : clean_vscode_based_ide fs (some p) none rok =
        (.noop, fsSet fs (backupPath p) (.sqliteDb rows),
          [Event.copied p (backupPath p)]) := by
      simp only [clean_vscode_based_ide, hd, hget1, hcount]
      simp
    rw [hrun]
    exact ⟨rfl, hget1, by simp⟩
  · intro fs p t phase rok hd hmatch
    have hrun : clean_jetbrains_xml_file fs p phase rok =
        (.noop, fsSet fs (backupPath p) (.xmlDoc t),
          [Event.copied p (backupPath p)]) := by
      simp only [clean_jetbrains_xml_file, hd, hmatch]
      simp
    rw [hrun]
    refine ⟨rfl, ?_, by simp⟩
    rw [fsGet_fsSet_ne _ _ _ _ (Ne.symm (backupPath_ne p))]
    exact hd

/-- C4 witness: a database whose only key is `"other"` and an XML tree with
no matching text or attributes are both reported as no-ops. -/
theorem C4_zero_matches_noop_witness :
    (clean_vscode_based_ide
      [((("/db").toList), Content.sqliteDb [((("other").toList), ("v").toList)])]
      (some (("/db").toList)) none true).fst = .noop ∧
    (clean_jetbrains_xml_file
      [((("/o.xml").toList),
        Content.xmlDoc (.node (("application").toList) [] none
          [.node (("component").toList)
            [((("name").toList), ("Other").toList)] none []]))]
      (("/o.xml").toList) .zeroRemoved true).fst = .noop :=
  ⟨(C4_zero_matches_noop.1
      [((("/db").toList), Content.sqliteDb [((("other").toList), ("v").toList)])]
      (("/db").toList) [((("other").toList), ("v").toList)] true rfl
      (by decide)).1,
   (C4_zero_matches_noop.2
      [((("/o.xml").toList),
        Content.xmlDoc (.node (("application").toList) [] none
          [.node (("component").toList)
            [((("name").toList), ("Other").toList)] none []]))]
      (("/o.xml").toList)
      (.node (("application").toList) [] none
        [.node (("component").toList)
          [((("name").toList), ("Other").toList)] none []])
      .zeroRemoved true rfl (by decide)).1⟩

/-- C1: false as stated: a generic (non-`sqlite3.Error`) exception in the
tabular purge's adapter step — the `except Exception` handler of
`clean_vscode_based_ide` — returns failure *without* copying the backup
back, so the store's content after the run differs from its content before
the run and no failed-restored/failed-unrecoverable distinction is made. -/
theorem C1_generic_failure_not_restored :
    (clean_vscode_based_ide
        [((("/db").toList),
          Content.sqliteDb [((("augmentKey").toList), ("v").toList)])]
        (some (("/db").toList))
        (some (.otherFault (.bytes (("corrupt").toList)))) true).fst =
      .failedNoRestore ∧
    Outcome.toBool .failedNoRestore = false ∧
    fsGet (clean_vscode_based_ide
        [((("/db").toList),
          Content.sqliteDb [((("augmentKey").toList), ("v").toList)])]
        (some (("/db").toList))
        (some (.otherFault (.bytes (("corrupt").toList)))) true).snd.fst
      (("/db").toList) = some (.bytes (("corrupt").toList)) ∧
    (Event.copied (backupPath (("/db").toList)) (("/db").toList)) ∉
      (clean_vscode_based_ide
        [((("/db").toList),
          Content.sqliteDb [((("augmentKey").toList), ("v").toList)])]
        (some (("/db").toList))
        (some (.otherFault (.bytes (("corrupt").toList)))) true).snd.snd ∧
    some (Content.bytes (("corrupt").toList)) ≠
      some (Content.sqliteDb [((("augmentKey").toList), ("v").toList)]) :=
  ⟨rfl, rfl, rfl, by decide,
   fun h => Content.noConfusion (Option.some.inj h)⟩

/-- C1 (amended): the backup is copied back over the original exactly for
the failure modes each handler covers — a database error
(`sqlite3.Error`) or unparsable store in the tabular purge, and a parse
error or any exception in the tree purge.  In each such case, when the
restore copy succeeds the outcome is failed-restored and the store's
content after the run equals its content before the run; when the restore
copy fails the outcome is failed-unrecoverable.  (A generic exception in
the tabular purge restores nothing; see the counterexample.) -/
theorem C1_restore_on_adapter_failure :
    (∀ (fs : FS) (p : Str) (c cf : Content), fsGet fs p = some c →
      (clean_vscode_based_ide fs (some p) (some (.sqliteFault cf)) true).fst =
          .failedRestored ∧
      fsGet (clean_vscode_based_ide fs (some p)
          (some (.sqliteFault cf)) true).snd.fst p = some c ∧
      (clean_vscode_based_ide fs (some p) (some (.sqliteFault cf)) false).fst =
          .failedUnrecoverable) ∧
    (∀ (fs : FS) (p : Str) (b : Str), fsGet fs p = some (.bytes b) →
      (clean_vscode_based_ide fs (some p) none true).fst = .failedRestored ∧
      fsGet (clean_vscode_based_ide fs (some p) none true).snd.fst p =
        some (.bytes b) ∧
      (clean_vscode_based_ide fs (some p) none false).fst =
        .failedUnrecoverable) ∧
    (∀ (fs : FS) (p : Str) (t : XTree) (ce : Content),
      fsGet fs p = some (.xmlDoc t) →
      noJetbrainsMatches decode_search_terms t = false →
      (clean_jetbrains_xml_file fs p (.exn ce) true).fst = .failedRestored ∧
      fsGet (clean_jetbrains_xml_file fs p (.exn ce) true).snd.fst p =
        some (.xmlDoc t) ∧
      (clean_jetbrains_xml_file fs p (.exn ce) false).fst =
        .failedUnrecoverable) ∧
    (∀ (fs : FS) (p : Str) (b : Str) (phase : JMut),
      fsGet fs p = some (.bytes b) →
      (clean_jetbrains_xml_file fs p phase true).fst = .failedRestored ∧
      fsGet (clean_jetbrains_xml_file fs p phase true).snd.fst p =
        some (.bytes b) ∧
      (clean_jetbrains_xml_file fs p phase false).fst =
        .failedUnrecoverable) := by
  have hbp : ∀ (fs : FS) (p : Str) (c cf : Content),
      fsGet (fsSet (fsSet fs (backupPath p) c) p cf) (backupPath p) = some c := by
    intro fs p c cf
    rw [fsGet_fsSet_ne _ _ _ _ (backupPath_ne p)]
    exact fsGet_fsSet_self _ _ _
  refine ⟨?_, ?_, ?_, ?_⟩
  · intro fs p c cf hd
    refine ⟨?_, ?_, ?_⟩
    · simp only [clean_vscode_based_ide, hd, restoreFromBackup, hbp]
      simp
    · simp only [clean_vscode_based_ide, hd, restoreFromBackup, hbp]
      simp [fsGet_fsSet_self]
    · simp only [clean_vscode_based_ide, hd, restoreFromBackup, hbp]
      simp
  · intro fs p b hd
    have hget1 : fsGet (fsSet fs (backupPath p) (.bytes b)) p =
        some (.bytes b) := by
      rw [fsGet_fsSet_ne _ _ _ _ (Ne.symm (backupPath_ne p))]
      exact hd
    refine ⟨?_, ?_, ?_⟩
    · simp only [clean_vscode_based_ide, hd, hget1, restoreFromBackup,
        fsGet_fsSet_self]
      simp
    · simp only [clean_vscode_based_ide, hd, hget1, restoreFromBackup,
        fsGet_fsSet_self]
      simp [fsGet_fsSet_self]
    · simp only [clean_vscode_based_ide, hd, hget1, restoreFromBackup,
        fsGet_fsSet_self]
      simp
  · intro fs p t ce hd hmatch
    refine ⟨?_, ?_, ?_⟩
    · simp only [clean_jetbrains_xml_file, hd, hmatch, restoreFromBackup, hbp]
      simp
    · simp only [clean_jetbrains_xml_file, hd, hmatch, restoreFromBackup, hbp]
      simp [fsGet_fsSet_self]
    · simp only [clean_jetbrains_xml_file, hd, hmatch, restoreFromBackup, hbp]
      simp
  · intro fs p b phase hd
    refine ⟨?_, ?_, ?_⟩
    · simp only [clean_jetbrains_xml_file, hd, restoreFromBackup,
        fsGet_fsSet_self]
      simp
    · simp only [clean_jetbrains_xml_file, hd, restoreFromBackup,
        fsGet_fsSet_self]
      simp [fsGet_fsSet_self]
    · simp only [clean_jetbrains_xml_file, hd, restoreFromBackup,
        fsGet_fsSet_self]
      simp

/-- C1 witness: a database error injected over a concrete one-row store is
reported failed-restored and the store's content is back to the original. -/
theorem C1_restore_on_adapter_failure_witness :
    (clean_vscode_based_ide
        [((("/db").toList), Content.sqliteDb [((("k").toList), ("v").toList)])]
        (some (("/db").toList))
        (some (.sqliteFault (.bytes (("junk").toList)))) true).fst =
      .failedRestored ∧
    fsGet (clean_vscode_based_ide
        [((("/db").toList), Content.sqliteDb [((("k").toList), ("v").toList)])]
        (some (("/db").toList))
        (some (.sqliteFault (.bytes (("junk").toList)))) true).snd.fst
      (("/db").toList) = some (.sqliteDb [((("k").toList), ("v").toList)]) :=
  ⟨(C1_restore_on_adapter_failure.1
      [((("/db").toList), Content.sqliteDb [((("k").toList), ("v").toList)])]
      (("/db").toList) (Content.sqliteDb [((("k").toList), ("v").toList)])
      (Content.bytes (("junk").toList)) rfl).1,
   (C1_restore_on_adapter_failure.1
      [((("/db").toList), Content.sqliteDb [((("k").toList), ("v").toList)])]
      (("/db").toList) (Content.sqliteDb [((("k").toList), ("v").toList)])
      (Content.bytes (("junk").toList)) rfl).2.1⟩

/-- C2: false as stated: the multi-IDE identifier rewrite
(`update_id_file`) writes the store in place with no backup — its trace is
exactly a delete followed by a write, with no copy event, and no backup
sibling exists afterwards. -/
theorem C2_update_without_backup :
    (update_id_file
        [((("/jb/PermanentDeviceId").toList), Content.bytes (("old").toList))]
        (("/jb/PermanentDeviceId").toList) 0 true true).fst = true ∧
    (update_id_file
        [((("/jb/PermanentDeviceId").toList), Content.bytes (("old").toList))]
        (("/jb/PermanentDeviceId").toList) 0 true true).snd.snd =
      [Event.unlinked (("/jb/PermanentDeviceId").toList),
       Event.wrote (("/jb/PermanentDeviceId").toList)] ∧
    fsGet (update_id_file
        [((("/jb/PermanentDeviceId").toList), Content.bytes (("old").toList))]
        (("/jb/PermanentDeviceId").toList) 0 true true).snd.fst
      (backupPath (("/jb/PermanentDeviceId").toList)) = none :=
  ⟨rfl, by decide, rfl⟩

/-- C2 (amended): a backup copy exists before any in-place write of the
original store in the backup-guarded paths — the document regenerate
(`modify_telemetry_ids`) and the two purge adapters — in the sense that
every write event of the store is preceded in the trace by the copy of the
store to its backup sibling; the identifier rewrite path
(`update_id_file`) takes no backup at all and emits no copy event. -/
theorem C2_backup_before_write :
    (∀ (fs : FS) (p : Str) (r1 r2 r3 : Nat),
      backupBeforeWrite (modify_telemetry_ids fs p r1 r2 r3).snd.snd p) ∧
    (∀ (fs : FS) (p : Str) (fault : Option VFault) (rok : Bool),
      backupBeforeWrite (clean_vscode_based_ide fs (some p) fault rok).snd.snd p) ∧
    (∀ (fs : FS) (p : Str) (phase : JMut) (rok : Bool),
      backupBeforeWrite (clean_jetbrains_xml_file fs p phase rok).snd.snd p) ∧
    (∀ (fs : FS) (p : Str) (r : Nat) (uOk wOk : Bool) (s d : Str),
      (Event.copied s d) ∉ (update_id_file fs p r uOk wOk).snd.snd) := by
  refine ⟨?_, ?_, ?_, ?_⟩
  · intro fs p r1 r2 r3
    cases hg : fsGet fs p with
    | none =>
      have ht : (modify_telemetry_ids fs p r1 r2 r3).snd.snd = [] := by
        simp only [modify_telemetry_ids, hg]
      rw [ht]
      exact backupBeforeWrite_nil p
    | some orig =>
      cases orig <;>
      · have ht : (modify_telemetry_ids fs p r1 r2 r3).snd.snd =
            Event.copied p (backupPath p) ::
              (modify_telemetry_ids fs p r1 r2 r3).snd.snd.tail := by
          simp only [modify_telemetry_ids, hg]
          rfl
        rw [ht]
        exact backupBeforeWrite_cons p _
  · intro fs p fault rok
    cases hg : fsGet fs p with
    | none =>
      have ht : (clean_vscode_based_ide fs (some p) fault rok).snd.snd = [] := by
        simp only [clean_vscode_based_ide, hg]
      rw [ht]
      exact backupBeforeWrite_nil p
    | some orig =>
      have ht : (clean_vscode_based_ide fs (some p) fault rok).snd.snd =
          Event.copied p (backupPath p) ::
            (clean_vscode_based_ide fs (some p) fault rok).snd.snd.tail := by
        rcases fault with _ | f
        · rcases hg2 : fsGet (fsSet fs (backupPath p) orig) p with _ | c
          · simp only [clean_vscode_based_ide, hg, hg2]
            rfl
          · cases c <;> simp only [clean_vscode_based_ide, hg, hg2] <;>
              (try split) <;> rfl
        · cases f <;> simp only [clean_vscode_based_ide, hg] <;> rfl
      rw [ht]
      exact backupBeforeWrite_cons p _
  · intro fs p phase rok
    cases hg : fsGet fs p with
    | none =>
      have ht : (clean_jetbrains_xml_file fs p phase rok).snd.snd = [] := by
        simp only [clean_jetbrains_xml_file, hg]
      rw [ht]
      exact backupBeforeWrite_nil p
    | some orig =>
      have ht : (clean_jetbrains_xml_file fs p phase rok).snd.snd =
          Event.copied p (backupPath p) ::
            (clean_jetbrains_xml_file fs p phase rok).snd.snd.tail := by
        cases orig <;> simp only [clean_jetbrains_xml_file, hg] <;>
          (try split) <;> (try cases phase) <;> rfl
      rw [ht]
      exact backupBeforeWrite_cons p _
  · intro fs p r uOk wOk s d
    unfold update_id_file
    cases fsGet fs p <;> cases uOk <;> cases wOk <;> simp

/-- C2 witness: in the document regenerate of a concrete one-file store the
write event at position 1 is preceded by the backup copy at position 0. -/
theorem C2_backup_before_write_witness :
    ∃ j : Nat, j < 1 ∧
      (modify_telemetry_ids
        [((("/s.json").toList), Content.jsonDoc [])]
        (("/s.json").toList) 0 0 0).snd.snd[j]? =
      some (Event.copied (("/s.json").toList)
        (backupPath (("/s.json").toList))) :=
  C2_backup_before_write.1
    [((("/s.json").toList), Content.jsonDoc [])]
    (("/s.json").toList) 0 0 0 1 (by decide)

/-- Helper: with the final permission change failing, one iteration of the
JetBrains id loop never increments the success count. -/
theorem jetbrainsIdStep_lock_fail_fst (d : Str) (rs : Str → Nat)
    (uOk wOk : Str → Bool) (acc : Nat × FS × List Event) (enc : Str) :
    (jetbrainsIdStep d rs uOk wOk (fun _ => false) acc enc).fst = acc.fst := by
  unfold jetbrainsIdStep
  cases decodeOne enc with
  | none => rfl
  | some name =>
    simp only []
    have hlock : ∀ (fs : FS) (q : Str), lock_file fs q false = false := by
      intro fs q
      unfold lock_file
      split <;> rfl
    rw [hlock]
    split <;> rfl

/-- C8: false as stated: `lock_file` does return false (and, being total,
never raises) when the final permission change cannot be applied, but in
`modify_jetbrains_ids` a lock failure is *not* a soft warning: an
identifier file that was successfully rewritten but could not be locked is
not counted, so the whole operation reports failure. -/
theorem C8_lock_failure_counterexample :
    (modify_jetbrains_ids [] (some (("/jb").toList)) (fun _ => 0)
        (fun _ => true) (fun _ => true) (fun _ => false)).fst = false ∧
    fsGet (modify_jetbrains_ids [] (some (("/jb").toList)) (fun _ => 0)
        (fun _ => true) (fun _ => true) (fun _ => false)).snd.fst
      (pjoin (("/jb").toList) (("PermanentDeviceId").toList)) =
      some (.bytes (uuid4_str 0)) ∧
    fsGet (modify_jetbrains_ids [] (some (("/jb").toList)) (fun _ => 0)
        (fun _ => true) (fun _ => true) (fun _ => false)).snd.fst
      (pjoin (("/jb").toList) (("PermanentUserId").toList)) =
      some (.bytes (uuid4_str 0)) :=
  ⟨rfl, rfl, rfl⟩

/-- C8 (amended): `lock_file` returns false and never raises when the
permission change cannot be applied; but `modify_jetbrains_ids` counts a
file as successful only when both the rewrite and the lock succeed, so
when every lock fails it reports overall failure even though files were
rewritten. -/
theorem C8_lock_failure_handling :
    (∀ (fs : FS) (p : Str), lock_file fs p false = false) ∧
    (∀ (fs : FS) (d : Str) (rs : Str → Nat) (uOk wOk : Str → Bool),
      (modify_jetbrains_ids fs (some d) rs uOk wOk (fun _ => false)).fst =
        false) := by
  constructor
  · intro fs p
    unfold lock_file
    split <;> rfl
  · intro fs d rs uOk wOk
    have h2 : ∀ acc : Nat × FS × List Event,
        (id_files_encoded.foldl (jetbrainsIdStep d rs uOk wOk (fun _ => false))
          acc).fst = acc.fst := by
      intro acc
      simp only [id_files_encoded, List.foldl_cons, List.foldl_nil,
        jetbrainsIdStep_lock_fail_fst]
    simp only [modify_jetbrains_ids, h2]
    rfl

end AugmentVip
